import Mathlib

/-!
Verification of the Deskbot desktop-companion application.

Shallow embedding of the Python modules:
* `src/openai_integration.py` — `OpenAIIntegration` (conversation history,
  `get_response`, `reset_conversation`);
* `src/face_tracking.py` — `FaceTracking.get_face_position` (normalization,
  clamping, decay of the stored gaze value);
* `src/gui.py` — `DeskbotGUI.animate` (eye-offset smoothing, blink counter);
* `src/voice_recognition.py` — `VoiceRecognition.check_wake_word`.

Machine integers do not occur (Python has arbitrary-precision ints); the
float arithmetic of the smoothing/decay math is embedded over `ℚ`, following
the spec's exact-arithmetic reading of the constants 0.95, 0.01, 0.15.
-/

namespace Deskbot

/- ### Conversation (`src/openai_integration.py`) -/

/-- Message roles used in the conversation history. -/
inductive Role where
  | system
  | user
  | assistant
deriving DecidableEq

/-- A role-tagged message, as the dicts `{"role": ..., "content": ...}`
appended to `self.conversation_history`. -/
structure Msg where
  role : Role
  content : String
deriving DecidableEq

/-- The fixed system message installed by `OpenAIIntegration.__init__`. -/
def systemMsg : Msg :=
  ⟨Role.system, "You are Deskbot, a friendly desktop companion inspired by the LOOI robot.\nYou have a cheerful and helpful personality. You enjoy chatting with users and helping them with tasks.\nKeep your responses concise and conversational - aim for 1-3 sentences unless more detail is specifically requested.\nYou can see the user through your camera and track their face to make eye contact.\nBe warm, engaging, and occasionally playful in your responses."⟩

/-- Apology returned by `get_response` when `self.client` is `None`
(no `OPENAI_API_KEY` configured). -/
def notConfiguredMsg : String :=
  "I\x27m sorry, but I\x27m not configured properly. Please set up your OpenAI API key."

/-- Apology returned by `get_response` when the backend call raises. -/
def apiErrorMsg : String :=
  "I\x27m sorry, I encountered an error processing your request."

/-- History cap from `get_response`:
`if len(h) > 19: h = [h[0]] + h[-18:]`. -/
def trimHistory (h : List Msg) : List Msg :=
  if h.length > 19 then h.take 1 ++ h.drop (h.length - 18) else h

/-- `OpenAIIntegration.get_response`.  `client = none` models an absent
credential; `backend` models `self.client.chat.completions.create` together
with the extraction of `response.choices[0].message.content`, returning
`Except.error` when that code raises.  Result: the returned string paired
with the conversation history after the call. -/
def getResponse (client : Option Unit) (h : List Msg) (input : String)
    (backend : List Msg → Except String String) : String × List Msg :=
  match client with
  | none => (notConfiguredMsg, h)
  | some _ =>
    let h1 := h ++ [⟨Role.user, input⟩]
    match backend h1 with
    | Except.error _ => (apiErrorMsg, h1)
    | Except.ok reply => (reply, trimHistory (h1 ++ [⟨Role.assistant, reply⟩]))

/-- `OpenAIIntegration.reset_conversation`:
`self.conversation_history = [self.conversation_history[0]]`. -/
def resetConversation (h : List Msg) : List Msg :=
  match h.head? with
  | some m => [m]
  | none => []

/-- Conversation histories reachable from the initial state through
successful `get_response` calls (`client` present, backend answers `ok`). -/
inductive Reachable : List Msg → Prop where
  | init : Reachable [systemMsg]
  | step (h : List Msg) (input reply : String)
      (backend : List Msg → Except String String)
      (hb : backend (h ++ [⟨Role.user, input⟩]) = Except.ok reply) :
      Reachable h → Reachable (getResponse (some ()) h input backend).2

/-- The claim C1 phrases the failure-path requirement as: the history after
the failed call has no trailing user-role entry lacking an assistant reply. -/
def noDanglingUser (h : List Msg) : Prop :=
  match h.getLast? with
  | some m => m.role ≠ Role.user
  | none => True

/-- A backend that always fails, modelling a raised exception. -/
def failBackend : List Msg → Except String String :=
  fun _ => Except.error "boom"

/- ### Face tracking (`src/face_tracking.py`) -/

/-- A detected face rectangle `(x, y, w, h)` in pixels. -/
abbrev Rect := ℕ × ℕ × ℕ × ℕ

/-- Bounding-box area `w * h`, the key of `max(faces, key=lambda f: f[2]*f[3])`. -/
def rectArea (f : Rect) : ℕ := f.2.2.1 * f.2.2.2

/-- Python `max(faces, key=...)`: the first element of maximal area
(later elements replace the current best only on strictly larger key);
`none` on an empty list. -/
def maxFace : List Rect → Option Rect
  | [] => none
  | f :: fs => some (fs.foldl (fun b g => if rectArea g > rectArea b then g else b) f)

/-- One no-detection decay step on the stored gaze value:
`x *= 0.95; y *= 0.95; if abs(x) < 0.01 and abs(y) < 0.01: (0,0) else (x,y)`. -/
def decayStep (p : ℚ × ℚ) : ℚ × ℚ :=
  let x := p.1 * (95 / 100)
  let y := p.2 * (95 / 100)
  if |x| < 1 / 100 ∧ |y| < 1 / 100 then (0, 0) else (x, y)

/-- `k` consecutive decay steps. -/
def decayIter : ℕ → ℚ × ℚ → ℚ × ℚ
  | 0, p => p
  | k + 1, p => decayStep (decayIter k p)

/-- Per-axis clamp `max(-1, min(1, v))`. -/
def clampUnit (v : ℚ) : ℚ := max (-1) (min 1 v)

/-- Gaze value computed from frame dimensions and a chosen face rectangle:
center of the face, offset from the frame center, normalized by the integer
half-dimensions, clamped to `[-1, 1]`.  Integer divisions are Python `//`. -/
def detectValue (w h : ℕ) (f : Rect) : ℚ × ℚ :=
  let faceCenterX : ℕ := f.1 + f.2.2.1 / 2
  let faceCenterY : ℕ := f.2.1 + f.2.2.2 / 2
  let frameCenterX : ℕ := w / 2
  let frameCenterY : ℕ := h / 2
  (clampUnit (((faceCenterX : ℚ) - (frameCenterX : ℚ)) / (frameCenterX : ℚ)),
   clampUnit (((faceCenterY : ℚ) - (frameCenterY : ℚ)) / (frameCenterY : ℚ)))

/-- Tracking state: `self.last_face_position` (`none` models Python `None`). -/
structure FTState where
  last : Option (ℚ × ℚ)
deriving DecidableEq

/-- One poll's observation of the external camera/detector: either the
capture failed (`ret` false) or a frame of the given dimensions was captured
with the given list of detected faces. -/
inductive Obs where
  | captureFail
  | frame (w h : ℕ) (faces : List Rect)

/-- `FaceTracking.get_face_position` for one poll (camera open): returns the
value the call returns (`none` models Python `None`) and the new state.
When a face is found with a degenerate half-dimension, the normalization in
the source raises `ZeroDivisionError`, which the enclosing `except` turns
into `return self.last_face_position` with the state unchanged. -/
def pollStep (s : FTState) (o : Obs) : Option (ℚ × ℚ) × FTState :=
  match o with
  | Obs.captureFail => (s.last, s)
  | Obs.frame w h faces =>
    match maxFace faces with
    | some f =>
      if w / 2 = 0 ∨ h / 2 = 0 then (s.last, s)
      else
        let p := detectValue w h f
        (some p, ⟨some p⟩)
    | none =>
      match s.last with
      | some p =>
        let q := decayStep p
        (some q, ⟨some q⟩)
      | none => (some (0, 0), s)

/-- Both components lie in `[-1, 1]`. -/
def inRange (p : ℚ × ℚ) : Prop :=
  -1 ≤ p.1 ∧ p.1 ≤ 1 ∧ -1 ≤ p.2 ∧ p.2 ≤ 1

/-- `inRange` lifted to an optional value (`none` counts as in range). -/
def inRangeOpt : Option (ℚ × ℚ) → Prop
  | none => True
  | some p => inRange p

/- ### Animated face (`src/gui.py`, `DeskbotGUI.animate`) -/

/-- One blink-logic step on `(blink_timer, is_blinking)`:
`timer += 1; if timer > 150: blinking = True; if timer > 155:
blinking = False; timer = 0`. -/
def blinkStep (s : ℕ × Bool) : ℕ × Bool :=
  let t := s.1 + 1
  if t > 150 then (if t > 155 then (0, false) else (t, true)) else (t, s.2)

/-- Blink state after `n` animation ticks from `(0, false)`. -/
def blinkIter : ℕ → ℕ × Bool
  | 0 => (0, false)
  | n + 1 => blinkStep (blinkIter n)

/-- One smoothing step of an eye-offset component toward `target`:
`offset += (target - offset) * 0.15`. -/
def smoothStep (target off : ℚ) : ℚ := off + (target - off) * (15 / 100)

/-- Eye-offset component after `n` animation ticks from `off`. -/
def smoothIter (target : ℚ) : ℕ → ℚ → ℚ
  | 0, off => off
  | n + 1, off => smoothStep target (smoothIter target n off)

/- ### Wake word (`src/voice_recognition.py`, `check_wake_word`) -/

/-- Python `str.split()` with no separator: split on runs of whitespace,
discarding empty pieces.  `acc` holds the current token reversed. -/
def pySplitAux : List Char → List Char → List (List Char)
  | [], acc => if acc = [] then [] else [acc.reverse]
  | c :: cs, acc =>
    if c.isWhitespace then
      (if acc = [] then pySplitAux cs [] else acc.reverse :: pySplitAux cs [])
    else pySplitAux cs (c :: acc)

/-- Python `text.split()`. -/
def pySplit (s : List Char) : List (List Char) := pySplitAux s []

/-- Python `' '.join(words)`. -/
def joinSpace (ws : List (List Char)) : List Char := List.intercalate [' '] ws

/-- Python `needle in haystack` on strings: substring containment. -/
def hasSubstr : List Char → List Char → Bool
  | hay, needle =>
    if needle.isPrefixOf hay then true
    else
      match hay with
      | [] => false
      | _ :: t => hasSubstr t needle

/-- `VoiceRecognition.check_wake_word` with the stored (already lower-cased)
wake word `ww`: `False` on empty text, otherwise
`' '.join(ww.split()) in text.lower()`.  Strings are modelled as `List Char`
and `lower()` as ASCII lowering, which agrees with Python on the ASCII
configuration and inputs at issue. -/
def checkWakeWord (ww text : List Char) : Bool :=
  if text = [] then false
  else
    let textLower := text.map Char.toLower
    let wakePhrase := joinSpace (pySplit ww)
    hasSubstr textLower wakePhrase

/-- Demonstration history: `n` successful `get_response` calls with input
`"u"` and reply `"r"` starting from the initial history. -/
def demoHist : ℕ → List Msg
  | 0 => [systemMsg]
  | n + 1 => (getResponse (some ()) (demoHist n) ("u") (fun _ => Except.ok ("r"))).2

/- ### Conversation lemmas -/

lemma getResponse_ok (h : List Msg) (input reply : String)
    (backend : List Msg → Except String String)
    (hb : backend (h ++ [⟨Role.user, input⟩]) = Except.ok reply) :
    getResponse (some ()) h input backend
      = (reply, trimHistory (h ++ [⟨Role.user, input⟩, ⟨Role.assistant, reply⟩])) := by
  simp [getResponse, hb]

lemma trimHistory_head (h : List Msg) (hne : h ≠ []) :
    (trimHistory h).head? = h.head? := by
  unfold trimHistory
  split
  · next hlen =>
    match h, hne with
    | m :: t, _ => simp
  · rfl

lemma trimHistory_length (h : List Msg) :
    (trimHistory h).length = if h.length > 19 then 19 else h.length := by
  unfold trimHistory
  split
  · next hlen =>
    simp only [List.length_append, List.length_take, List.length_drop]
    omega
  · simp

/-- Invariant of reachable histories: the head is the fixed system message
and the length is at most 19. -/
lemma reachable_inv (h : List Msg) (hr : Reachable h) :
    h.head? = some systemMsg ∧ h.length ≤ 19 := by
  induction hr with
  | init => exact ⟨rfl, by simp⟩
  | step h input reply backend hb _ ih =>
    rw [getResponse_ok h input reply backend hb]
    have hne : h ≠ [] := by
      intro hnil
      rw [hnil] at ih
      simp at ih
    constructor
    · rw [trimHistory_head _ (by simp)]
      rcases h with _ | ⟨m, t⟩
      · exact absurd rfl hne
      · simpa using ih.1
    · rw [trimHistory_length]
      split
      · omega
      · next hle =>
        simp only [List.length_append, List.length_cons, List.length_nil] at hle ⊢
        omega

lemma demoHist_reachable (n : ℕ) : Reachable (demoHist n) := by
  induction n with
  | zero => exact Reachable.init
  | succ n ih =>
    exact Reachable.step (demoHist n) ("u") ("r") (fun _ => Except.ok ("r")) rfl ih


/- ### Theorems: Conversation -/

/-- Claim C6: with no credential configured (`client = None`), `get_response`
returns the fixed not-configured apology, leaves the history unchanged, and
its result does not depend on the backend at all (no backend call occurs). -/
theorem c6_no_credential (h : List Msg) (input : String)
    (b1 b2 : List Msg → Except String String) :
    getResponse none h input b1 = (notConfiguredMsg, h) ∧
    getResponse none h input b1 = getResponse none h input b2 :=
  ⟨rfl, rfl⟩

/-- Claim C1, counterexample: after a failed backend call from the initial
history with input `"Hello"`, the history ends in a user-role entry with no
assistant reply after it — the claim's no-dangling-user condition is false. -/
theorem c1_counterexample :
    ¬ noDanglingUser (getResponse (some ()) [systemMsg] ("Hello") failBackend).2 := by
  intro hclaim
  have hof : (getResponse (some ()) [systemMsg] ("Hello") failBackend).2
      = [systemMsg, ⟨Role.user, "Hello"⟩] := rfl
  rw [hof] at hclaim
  exact absurd rfl hclaim

/-- Claim C1, amended: if the backend call fails, `get_response` returns the
fixed error apology, and the history afterwards is the previous history plus
the appended user message — which therefore remains as a trailing unpaired
user entry. -/
theorem c1_failure_keeps_user_msg (h : List Msg) (input e : String)
    (b : List Msg → Except String String)
    (hb : b (h ++ [⟨Role.user, input⟩]) = Except.error e) :
    getResponse (some ()) h input b = (apiErrorMsg, h ++ [⟨Role.user, input⟩]) := by
  simp [getResponse, hb]

/-- Witness for `c1_failure_keeps_user_msg` at a concrete failing backend. -/
theorem c1_failure_keeps_user_msg_witness :
    getResponse (some ()) [systemMsg] ("Hello") failBackend
      = (apiErrorMsg, [systemMsg] ++ [⟨Role.user, "Hello"⟩]) :=
  c1_failure_keeps_user_msg [systemMsg] ("Hello") ("boom") failBackend rfl

/-- Claim C2: every history reachable through successful `get_response`
calls starts with the fixed system message and has at most 19 entries; and
when a call's two appends push past 19 entries, the resulting history is
exactly the system message followed by the most recent 18 entries. -/
theorem c2_history_bound (h : List Msg) (hr : Reachable h) (input reply : String) :
    h.head? = some systemMsg ∧ h.length ≤ 19 ∧
    (19 < h.length + 2 →
      (getResponse (some ()) h input (fun _ => Except.ok reply)).2
        = systemMsg ::
          (h ++ [Msg.mk Role.user input, Msg.mk Role.assistant reply]).drop (h.length + 2 - 18)) := by
  obtain ⟨hhead, hlen⟩ := reachable_inv h hr
  refine ⟨hhead, hlen, fun hgt => ?_⟩
  rw [getResponse_ok h input reply _ rfl]
  rcases h with _ | ⟨m, t⟩
  · simp at hhead
  · have hm : m = systemMsg := by simpa using hhead
    subst hm
    unfold trimHistory
    rw [if_pos (by simp only [List.length_append, List.length_cons] at hgt ⊢; omega)]
    simp only [List.cons_append, List.take_succ_cons, List.take_zero,
      List.length_cons, List.length_append, List.length_nil, List.singleton_append]
    congr 1

/-- Witness for `c2_history_bound` at a concrete reachable 19-entry history. -/
theorem c2_history_bound_witness :
    (demoHist 9).head? = some systemMsg ∧ (demoHist 9).length ≤ 19 ∧
    (getResponse (some ()) (demoHist 9) ("u") (fun _ => Except.ok ("r"))).2
      = systemMsg ::
        ((demoHist 9) ++ [Msg.mk Role.user ("u"), Msg.mk Role.assistant ("r")]).drop
          ((demoHist 9).length + 2 - 18) := by
  have h := c2_history_bound (demoHist 9) (demoHist_reachable 9) ("u") ("r")
  exact ⟨h.1, h.2.1, h.2.2 (by decide)⟩

/-- Claim C10: from any reachable conversation state — every history the
program can hold begins with the original system message, whether produced
by successful calls, failed calls (which append only a trailing user entry),
or the no-credential path (which changes nothing) — `reset_conversation`
leaves exactly the one-element history holding that original system message,
discarding all user and assistant entries. -/
theorem c10_reset (h : List Msg) (hh : h.head? = some systemMsg) :
    resetConversation h = [systemMsg] := by
  unfold resetConversation
  rw [hh]

/-- Witness for `c10_reset` at a post-failure history: the state left by a
failed backend call (`c1`-style) still begins with the system message and
resets to exactly `[systemMsg]`. -/
theorem c10_reset_witness :
    resetConversation [systemMsg, ⟨Role.user, "Hello"⟩] = [systemMsg] :=
  c10_reset [systemMsg, ⟨Role.user, "Hello"⟩] rfl

/- ### Helper lemmas: decay, clamping, smoothing -/

lemma abs_mul_pow_succ_le (c a : ℚ) (hc0 : 0 ≤ c) (hc1 : c ≤ 1) (n : ℕ) :
    |a * c ^ (n + 1)| ≤ |a * c ^ n| := by
  have h : a * c ^ (n + 1) = a * c ^ n * c := by ring
  rw [h, abs_mul, abs_of_nonneg hc0]
  have h2 := mul_le_mul_of_nonneg_left hc1 (abs_nonneg (a * c ^ n))
  simpa using h2

lemma decayStep_eq (p : ℚ × ℚ) :
    decayStep p
      = if 1 / 100 ≤ |p.1 * (95 / 100)| ∨ 1 / 100 ≤ |p.2 * (95 / 100)|
        then (p.1 * (95 / 100), p.2 * (95 / 100)) else (0, 0) := by
  unfold decayStep
  by_cases hc : |p.1 * (95 / 100)| < 1 / 100 ∧ |p.2 * (95 / 100)| < 1 / 100
  · rw [if_pos hc, if_neg (by push_neg; exact hc)]
  · rw [if_neg hc, if_pos (by simpa only [not_and_or, not_lt] using hc)]

lemma decayStep_zero : decayStep (0, 0) = (0, 0) := by
  rw [decayStep_eq]
  norm_num

lemma clampUnit_mem (v : ℚ) : -1 ≤ clampUnit v ∧ clampUnit v ≤ 1 := by
  unfold clampUnit
  exact ⟨le_max_left _ _, max_le (by norm_num) (min_le_left _ _)⟩

lemma detectValue_inRange (w h : ℕ) (f : Rect) : inRange (detectValue w h f) := by
  unfold detectValue inRange
  exact ⟨(clampUnit_mem _).1, (clampUnit_mem _).2, (clampUnit_mem _).1, (clampUnit_mem _).2⟩

lemma decayStep_inRange (p : ℚ × ℚ) (hp : inRange p) : inRange (decayStep p) := by
  obtain ⟨h1, h2, h3, h4⟩ := hp
  rw [decayStep_eq]
  split
  · exact ⟨by linarith, by linarith, by linarith, by linarith⟩
  · norm_num [inRange]

/- ### Helper lemmas: blink counter and wake word -/

lemma blinkIter_eq (n : ℕ) :
    blinkIter n = (n % 156, decide (150 < n % 156)) := by
  induction n with
  | zero => rfl
  | succ n ih =>
    rw [show blinkIter (n + 1) = blinkStep (blinkIter n) from rfl, ih]
    unfold blinkStep
    have hlt : n % 156 < 156 := Nat.mod_lt _ (by norm_num)
    by_cases h155 : n % 156 = 155
    · have h1 : (n + 1) % 156 = 0 := by omega
      rw [h155, h1]
      norm_num
    · have h1 : (n + 1) % 156 = n % 156 + 1 := by omega
      rw [h1]
      by_cases h150 : n % 156 + 1 > 150
      · have hn155 : ¬ (n % 156 + 1 > 155) := by omega
        rw [if_pos h150, if_neg hn155, decide_eq_true h150]
      · have e1 : decide (150 < n % 156) = false := decide_eq_false (by omega)
        have e2 : decide (150 < n % 156 + 1) = false := decide_eq_false (by omega)
        rw [if_neg h150, e1, e2]

lemma hasSubstr_iff (hay nd : List Char) :
    hasSubstr hay nd = true ↔ ∃ s t, s ++ nd ++ t = hay := by
  induction hay with
  | nil =>
    cases nd with
    | nil => simp [hasSubstr]
    | cons a nd2 => simp [hasSubstr]
  | cons c cs ih =>
    simp only [hasSubstr]
    split
    · next hpre =>
      obtain ⟨u, hu⟩ := List.isPrefixOf_iff_prefix.mp hpre
      exact iff_of_true rfl ⟨[], u, by simpa using hu⟩
    · next hpre =>
      rw [ih]
      constructor
      · rintro ⟨s, t, hst⟩
        exact ⟨c :: s, t, by simp [hst]⟩
      · rintro ⟨s, t, hst⟩
        cases s with
        | nil =>
          exfalso
          apply hpre
          rw [List.isPrefixOf_iff_prefix]
          exact ⟨t, by simpa using hst⟩
        | cons a s2 =>
          simp only [List.cons_append] at hst
          injection hst with h1 h2
          exact ⟨s2, t, h2⟩

/- ### Theorems: face tracking -/

/-- Claim C3: starting from stored value `(x0, y0)`, after `k ≥ 1` polls that
capture a frame but detect no face, the stored value is
`(x0·0.95^k, y0·0.95^k)` as long as some component of that product has
magnitude at least 0.01, and is exactly `(0, 0)` once both components have
dropped below 0.01 in magnitude. -/
theorem c3_decay_law (x0 y0 : ℚ) (k : ℕ) (hk : 1 ≤ k) :
    decayIter k (x0, y0)
      = if 1 / 100 ≤ |x0 * (95 / 100) ^ k| ∨ 1 / 100 ≤ |y0 * (95 / 100) ^ k|
        then (x0 * (95 / 100) ^ k, y0 * (95 / 100) ^ k)
        else (0, 0) := by
  obtain ⟨j, rfl⟩ : ∃ j, k = j + 1 := ⟨k - 1, by omega⟩
  clear hk
  induction j with
  | zero =>
    rw [show decayIter 1 (x0, y0) = decayStep (x0, y0) from rfl, decayStep_eq]
    simp only [zero_add, pow_one]
  | succ j ih =>
    rw [show decayIter (j + 1 + 1) (x0, y0) = decayStep (decayIter (j + 1) (x0, y0)) from rfl,
      ih]
    have hx : x0 * (95 / 100 : ℚ) ^ (j + 1) * (95 / 100) = x0 * (95 / 100) ^ (j + 1 + 1) := by
      ring
    have hy : y0 * (95 / 100 : ℚ) ^ (j + 1) * (95 / 100) = y0 * (95 / 100) ^ (j + 1 + 1) := by
      ring
    by_cases hc : 1 / 100 ≤ |x0 * (95 / 100 : ℚ) ^ (j + 1)| ∨
        1 / 100 ≤ |y0 * (95 / 100 : ℚ) ^ (j + 1)|
    · rw [if_pos hc, decayStep_eq]
      simp only [hx, hy]
    · rw [if_neg hc, decayStep_zero, if_neg]
      push_neg at hc ⊢
      constructor
      · exact lt_of_le_of_lt (abs_mul_pow_succ_le _ x0 (by norm_num) (by norm_num) (j + 1)) hc.1
      · exact lt_of_le_of_lt (abs_mul_pow_succ_le _ y0 (by norm_num) (by norm_num) (j + 1)) hc.2

/-- Witness for `c3_decay_law` at `(x0, y0) = (1, 1)`, `k = 1`. -/
theorem c3_decay_law_witness :
    decayIter 1 (1, 1)
      = if 1 / 100 ≤ |(1 : ℚ) * (95 / 100) ^ 1| ∨ 1 / 100 ≤ |(1 : ℚ) * (95 / 100) ^ 1|
        then ((1 : ℚ) * (95 / 100) ^ 1, (1 : ℚ) * (95 / 100) ^ 1)
        else (0, 0) :=
  c3_decay_law 1 1 1 (le_refl 1)

/-- Claim C8: every gaze value computed from a detected face is clamped into
`[-1, 1]` on both axes, and — given the stored value is in range or absent —
every non-null value a poll returns, and the stored value it leaves, are in
`[-1, 1]` on both axes. -/
theorem c8_gaze_in_range (s : FTState) (o : Obs) (hs : inRangeOpt s.last) :
    (∀ w h : ℕ, ∀ f : Rect, inRange (detectValue w h f)) ∧
    inRangeOpt (pollStep s o).1 ∧ inRangeOpt (pollStep s o).2.last := by
  refine ⟨fun w h f => detectValue_inRange w h f, ?_⟩
  cases o with
  | captureFail => exact ⟨hs, hs⟩
  | frame w h faces =>
    cases hmf : maxFace faces with
    | some f =>
      simp only [pollStep, hmf]
      split
      · exact ⟨hs, hs⟩
      · exact ⟨detectValue_inRange w h f, detectValue_inRange w h f⟩
    | none =>
      cases hl : s.last with
      | some p =>
        have hp : inRange p := by rw [hl] at hs; exact hs
        simp only [pollStep, hmf, hl]
        exact ⟨decayStep_inRange p hp, decayStep_inRange p hp⟩
      | none =>
        simp only [pollStep, hmf, hl]
        exact ⟨by norm_num [inRangeOpt, inRange], trivial⟩

/-- Witness for `c8_gaze_in_range` at a concrete in-range state. -/
theorem c8_gaze_in_range_witness :
    inRange (detectValue 640 480 (100, 100, 50, 50)) ∧
    inRangeOpt (pollStep ⟨some (1 / 2, 0)⟩ Obs.captureFail).1 ∧
    inRangeOpt (pollStep ⟨some (1 / 2, 0)⟩ Obs.captureFail).2.last := by
  have h := c8_gaze_in_range ⟨some (1 / 2, 0)⟩ Obs.captureFail
    (by norm_num [inRangeOpt, inRange])
  exact ⟨h.1 640 480 (100, 100, 50, 50), h.2.1, h.2.2⟩

/-- Claim C9, counterexample: a poll that captures a frame, detects no face,
and has no previous stored value returns `(0, 0)` but does NOT store it —
the stored value stays absent, contrary to the claim. -/
theorem c9_counterexample :
    (pollStep ⟨none⟩ (Obs.frame 640 480 [])).1 = some (0, 0) ∧
    (pollStep ⟨none⟩ (Obs.frame 640 480 [])).2.last ≠ some (0, 0) := by
  refine ⟨rfl, ?_⟩
  show (none : Option (ℚ × ℚ)) ≠ some (0, 0)
  simp

/-- Claim C9, amended: when a poll captures a frame, detects no face, and no
previous stored value exists, it returns `(0, 0)` but leaves the stored
value absent (`None`) rather than storing `(0, 0)`. -/
theorem c9_no_face_no_previous (w h : ℕ) :
    pollStep ⟨none⟩ (Obs.frame w h []) = (some (0, 0), ⟨none⟩) := rfl

/- ### Theorems: animated face -/

/-- Claim C4: from counter 0 and not blinking, the 151st animation tick
turns the blink on, the 156th turns it off and resets the counter to 0; in
general after any number of ticks the blink visual is on exactly while the
counter lies in the interval `(150, 155]`. -/
theorem c4_blink_cycle :
    (blinkIter 151).2 = true ∧ blinkIter 156 = (0, false) ∧
    ∀ n : ℕ, ((blinkIter n).2 = true ↔ 150 < (blinkIter n).1 ∧ (blinkIter n).1 ≤ 155) := by
  refine ⟨by rw [blinkIter_eq]; rfl, by rw [blinkIter_eq]; rfl, fun n => ?_⟩
  rw [blinkIter_eq]
  simp only [decide_eq_true_eq]
  have hlt : n % 156 < 156 := Nat.mod_lt _ (by norm_num)
  exact ⟨fun hgt => ⟨hgt, by omega⟩, fun hc => hc.1⟩

/-- Claim C5: with a constant target and eye offset starting at 0, after `n`
animation ticks the offset equals `target·(1 − 0.85^n)`, and the distance to
the target never increases from one tick to the next (monotone convergence,
exact arithmetic). -/
theorem c5_smoothing (t : ℚ) (n : ℕ) :
    smoothIter t n 0 = t * (1 - (85 / 100) ^ n) ∧
    |t - smoothIter t (n + 1) 0| ≤ |t - smoothIter t n 0| := by
  have formula : ∀ m : ℕ, smoothIter t m 0 = t * (1 - (85 / 100) ^ m) := by
    intro m
    induction m with
    | zero => simp [smoothIter]
    | succ m ih =>
      rw [show smoothIter t (m + 1) 0 = smoothStep t (smoothIter t m 0) from rfl, ih]
      unfold smoothStep
      ring
  refine ⟨formula n, ?_⟩
  rw [formula n, formula (n + 1)]
  have e1 : t - t * (1 - (85 / 100 : ℚ) ^ (n + 1)) = t * (85 / 100) ^ (n + 1) := by ring
  have e2 : t - t * (1 - (85 / 100 : ℚ) ^ n) = t * (85 / 100) ^ n := by ring
  rw [e1, e2]
  exact abs_mul_pow_succ_le _ t (by norm_num) (by norm_num) n

/- ### Theorems: wake word -/

/-- Claim C7: `check_wake_word` returns false on empty text and otherwise
returns true exactly when the lower-cased text contains the configured
(lower-cased, whitespace-normalized) wake phrase as a contiguous substring;
in particular the two example inputs of the spec behave as documented. -/
theorem c7_wake_word :
    (∀ ww : List Char, checkWakeWord ww [] = false) ∧
    (∀ ww text : List Char, joinSpace (pySplit ww) = ww → text ≠ [] →
      (checkWakeWord ww text = true ↔ ∃ s t, s ++ ww ++ t = text.map Char.toLower)) ∧
    checkWakeWord ("hey deskbot".toList) ("Hey Deskbot, what time is it".toList) = true ∧
    checkWakeWord ("hey deskbot".toList) ("hello there".toList) = false := by
  refine ⟨fun ww => rfl, fun ww text hnorm hne => ?_, by decide, by decide⟩
  unfold checkWakeWord
  rw [if_neg hne, hnorm]
  exact hasSubstr_iff _ _

/-- Witness for `c7_wake_word`: the containment reading at the spec's
positive example, with the hypotheses discharged concretely. -/
theorem c7_wake_word_witness :
    checkWakeWord ("hey deskbot".toList) ("Hey Deskbot, what time is it".toList) = true ∧
    (∃ s t, s ++ ("hey deskbot".toList) ++ t
        = ("Hey Deskbot, what time is it".toList).map Char.toLower) := by
  have h := c7_wake_word
  refine ⟨h.2.2.1, ?_⟩
  exact (h.2.1 ("hey deskbot".toList) ("Hey Deskbot, what time is it".toList)
    (by decide) (by decide)).mp h.2.2.1

end Deskbot
